import Mathlib

/-!
Verification of the `talker` package's control-flow combinators and process
supervisor (`exco.go`) against its specification.

Shallow embedding conventions:
* Go's `type Callback func(context.Context) error` is modelled as a Lean
  function `C → Option E`, where `C` is an opaque context type, `E` an opaque
  error payload type, `none` is the nil error and `some e` a non-nil error.
* Side effects relevant to the claims (which callback was invoked, in which
  order, and when `time.Sleep` runs) are made observable by instrumenting each
  combinator to also return a trace of events, exactly following the control
  flow of the Go source.
-/

namespace Talker

/-- `emptyCallback` from exco.go: `func emptyCallback(ctx) error { return nil }`.
Also used as the out-of-range default for `List.getD` when indexing callback
lists. -/
def emptyCallback {C E : Type} : C → Option E := fun _ => none

/-- Instrumented body of `Sequential` (exco.go lines 30-40): the Go closure
iterates over the callbacks in order, invoking each with the shared `ctx`,
and returns the first non-nil error immediately; `i` is the absolute index of
the head of the remaining list.  The returned list records the indices of the
callbacks that were invoked, in invocation order. -/
def seqAux {C E : Type} (ctx : C) : Nat → List (C → Option E) → List Nat × Option E
  | _, [] => ([], none)
  | i, cb :: rest =>
    match cb ctx with
    | some e => ([i], some e)
    | none =>
      let r := seqAux ctx (i + 1) rest
      (i :: r.1, r.2)

/-- `Sequential(callbacks...)` applied to a context: returns the trace of
invoked callback indices and the resulting error. -/
def Sequential {C E : Type} (cbs : List (C → Option E)) (ctx : C) : List Nat × Option E :=
  seqAux ctx 0 cbs

/-- Index `i` is the first index at which the callback list fails under `ctx`. -/
def IsFirstFail {C E : Type} (cbs : List (C → Option E)) (ctx : C) (i : Nat) : Prop :=
  i < cbs.length ∧ (cbs.getD i emptyCallback) ctx ≠ none ∧
    ∀ j < i, (cbs.getD j emptyCallback) ctx = none

lemma seqAux_all_none {C E : Type} (ctx : C) (cbs : List (C → Option E))
    (h : ∀ j < cbs.length, (cbs.getD j emptyCallback) ctx = none) (i : Nat) :
    seqAux ctx i cbs = (List.range' i cbs.length, none) := by
  induction cbs generalizing i with
  | nil => simp [seqAux]
  | cons cb rest ih =>
    have hcb : cb ctx = none := by simpa using h 0 (by simp)
    have hrest : ∀ j < rest.length, (rest.getD j emptyCallback) ctx = none := by
      intro j hj
      simpa using h (j + 1) (by simpa using Nat.succ_lt_succ hj)
    simp [seqAux, hcb, ih hrest (i + 1), List.range'_succ]

lemma seqAux_first_fail {C E : Type} (ctx : C) (cbs : List (C → Option E)) (k : Nat)
    (hk : k < cbs.length)
    (hfail : (cbs.getD k emptyCallback) ctx ≠ none)
    (hprev : ∀ j < k, (cbs.getD j emptyCallback) ctx = none) (i : Nat) :
    seqAux ctx i cbs = (List.range' i (k + 1), (cbs.getD k emptyCallback) ctx) := by
  induction cbs generalizing i k with
  | nil => simp at hk
  | cons cb rest ih =>
    cases k with
    | zero =>
      obtain ⟨e, he⟩ := Option.ne_none_iff_exists'.mp (by simpa using hfail)
      simp [seqAux, he]
    | succ k =>
      have hcb : cb ctx = none := by simpa using hprev 0 (Nat.succ_pos k)
      have hk' : k < rest.length := by simpa using hk
      have hfail' : (rest.getD k emptyCallback) ctx ≠ none := by simpa using hfail
      have hprev' : ∀ j < k, (rest.getD j emptyCallback) ctx = none := by
        intro j hj
        simpa using hprev (j + 1) (by simpa using Nat.succ_lt_succ hj)
      simp [seqAux, hcb, ih k hk' hfail' hprev' (i + 1), List.range'_succ]

/-- C3: `Sequential` invokes the callbacks in the given order under the shared
context; if index `i` is the first whose result is non-nil, exactly callbacks
`0..i` are invoked (in order) and the returned error equals callback `i`'s
error; if every callback returns nil, all are invoked and the result is nil. -/
theorem Sequential_spec {C E : Type} (cbs : List (C → Option E)) (ctx : C) :
    (∀ i, IsFirstFail cbs ctx i →
      (Sequential cbs ctx).1 = List.range (i + 1) ∧
      (Sequential cbs ctx).2 = (cbs.getD i emptyCallback) ctx) ∧
    ((∀ j < cbs.length, (cbs.getD j emptyCallback) ctx = none) →
      (Sequential cbs ctx).1 = List.range cbs.length ∧
      (Sequential cbs ctx).2 = none) := by
  constructor
  · rintro i ⟨hi, hfail, hprev⟩
    have h := seqAux_first_fail ctx cbs i hi hfail hprev 0
    rw [Sequential, h, List.range_eq_range']
    exact ⟨rfl, rfl⟩
  · intro h
    have h2 := seqAux_all_none ctx cbs h 0
    rw [Sequential, h2, List.range_eq_range']
    exact ⟨rfl, rfl⟩

/-- Witness for C3: on the concrete callback list
`[ok, fail 5, fail 7]` under context `0`, the first failure is at index 1,
callbacks 0 and 1 are invoked in order, and the result is error `5`. -/
theorem Sequential_spec_witness :
    IsFirstFail [fun _ => (none : Option Nat), fun _ => some 5, fun _ => some 7] (0 : Nat) 1 ∧
    (Sequential [fun _ => (none : Option Nat), fun _ => some 5, fun _ => some 7] 0).1 =
      List.range 2 ∧
    (Sequential [fun _ => (none : Option Nat), fun _ => some 5, fun _ => some 7] 0).2 =
      some 5 := by
  have hff : IsFirstFail [fun _ => (none : Option Nat), fun _ => some 5, fun _ => some 7]
      (0 : Nat) 1 := ⟨by decide, by decide, by decide⟩
  have h := (Sequential_spec [fun _ => (none : Option Nat), fun _ => some 5, fun _ => some 7]
      (0 : Nat)).1 1 hff
  exact ⟨hff, h.1, by simpa using h.2⟩

/-- Events observable in a run of `Retry` (exco.go lines 113-128): the `i`-th
invocation of the callback (0-based), and one `time.Sleep(delay)`. -/
inductive REv where
  | call (i : Nat)
  | sleep
deriving DecidableEq

/-- Instrumented loop body of `Retry`: the Go closure runs
`for i := 0; i < retries; i++ { err = callback(ctx); if err == nil { return nil };
time.Sleep(delay) }` and finally `return err`.  `fuel` is the number of loop
iterations remaining, `i` the attempt index, `err` the current value of the
`err` variable.  The callback's behaviour is modelled as a function from the
attempt number to its result. -/
def retryAux {E : Type} (cb : Nat → Option E) : Nat → Nat → Option E → List REv × Option E
  | 0, _, err => ([], err)
  | fuel + 1, i, _ =>
    match cb i with
    | none => ([REv.call i], none)
    | some e =>
      let r := retryAux cb fuel (i + 1) (some e)
      (REv.call i :: REv.sleep :: r.1, r.2)

/-- `Retry(callback, retries, delay)` applied to a context: `retries` is a Go
`int`; a non-positive count runs zero loop iterations.  Returns the event
trace and the final error. -/
def Retry {E : Type} (cb : Nat → Option E) (retries : Int) : List REv × Option E :=
  retryAux cb retries.toNat 0 none

/-- Number of callback invocations recorded in a trace. -/
def callCount (tr : List REv) : Nat :=
  tr.countP fun ev => match ev with | REv.call _ => true | REv.sleep => false

lemma callCount_pairs (l : List Nat) :
    callCount (l.flatMap fun i => [REv.call i, REv.sleep]) = l.length := by
  induction l with
  | nil => rfl
  | cons x xs ih => simpa [callCount, List.countP_cons] using ih

lemma sleep_count_pairs (l : List Nat) :
    (l.flatMap fun i => [REv.call i, REv.sleep]).count REv.sleep = l.length := by
  induction l with
  | nil => rfl
  | cons x xs ih => simpa [List.count_cons] using ih

lemma retryAux_succ_some {E : Type} (cb : Nat → Option E) (fuel i : Nat) (err : Option E)
    (e : E) (he : cb i = some e) :
    retryAux cb (fuel + 1) i err =
      (REv.call i :: REv.sleep :: (retryAux cb fuel (i + 1) (some e)).1,
        (retryAux cb fuel (i + 1) (some e)).2) := by
  simp [retryAux, he]

lemma retryAux_succ_none {E : Type} (cb : Nat → Option E) (fuel i : Nat) (err : Option E)
    (he : cb i = none) :
    retryAux cb (fuel + 1) i err = ([REv.call i], none) := by
  simp [retryAux, he]

lemma retryAux_all_fail {E : Type} (cb : Nat → Option E) (fuel : Nat) :
    ∀ i err, 0 < fuel → (∀ j < fuel, (cb (i + j)).isSome) →
    retryAux cb fuel i err =
      ((List.range' i fuel).flatMap fun j => [REv.call j, REv.sleep], cb (i + fuel - 1)) := by
  induction fuel with
  | zero => intro i err h; omega
  | succ fuel ih =>
    intro i err _ hfail
    obtain ⟨e, he⟩ := Option.isSome_iff_exists.mp (by simpa using hfail 0 (Nat.succ_pos fuel))
    cases fuel with
    | zero =>
      rw [retryAux_succ_some cb 0 i err e he]
      simp [retryAux, he, List.range'_succ]
    | succ fuel =>
      have hrec := ih (i + 1) (some e) (Nat.succ_pos fuel) (fun j hj => by
        have := hfail (j + 1) (by omega)
        simpa [Nat.add_assoc, Nat.add_comm 1 j] using this)
      have harith : i + 1 + (fuel + 1) - 1 = i + (fuel + 1 + 1) - 1 := by omega
      rw [retryAux_succ_some cb (fuel + 1) i err e he, hrec]
      simp [List.range'_succ, harith]

lemma retryAux_first_success {E : Type} (cb : Nat → Option E) (m : Nat) :
    ∀ fuel i err, m < fuel → (∀ j < m, (cb (i + j)).isSome) → cb (i + m) = none →
    retryAux cb fuel i err =
      (((List.range' i m).flatMap fun j => [REv.call j, REv.sleep]) ++ [REv.call (i + m)],
        none) := by
  induction m with
  | zero =>
    intro fuel i err hm hprev hsucc
    cases fuel with
    | zero => omega
    | succ fuel =>
      rw [retryAux_succ_none cb fuel i err (by simpa using hsucc)]
      simp
  | succ m ih =>
    intro fuel i err hm hprev hsucc
    cases fuel with
    | zero => omega
    | succ fuel =>
      obtain ⟨e, he⟩ := Option.isSome_iff_exists.mp (by simpa using hprev 0 (Nat.succ_pos m))
      have hrec := ih fuel (i + 1) (some e) (by omega) (fun j hj => by
          have := hprev (j + 1) (by omega)
          simpa [Nat.add_assoc, Nat.add_comm 1 j] using this)
        (by rw [show i + 1 + m = i + (m + 1) by omega]; exact hsucc)
      have hidx : i + 1 + m = i + (m + 1) := by omega
      rw [retryAux_succ_some cb fuel i err e he, hrec]
      simp [List.range'_succ, hidx]

/-- C2 counterexample: with a single attempt (`retries = 1`) that fails, the
code performs one sleep, placed after the final attempt — not zero sleeps as
the claim ("exactly n-1 sleeps, no sleep after the final attempt") requires. -/
theorem Retry_no_final_sleep_counterexample :
    ¬ ((Retry (fun _ => some (0 : Nat)) 1).1.count REv.sleep = 1 - 1 ∧
       (Retry (fun _ => some (0 : Nat)) 1).1 = [REv.call 0]) := by
  decide

/-- C2 (amended): if every one of the `n ≥ 1` attempts fails, the callback is
invoked exactly `n` times, exactly `n` sleeps occur — one after every failed
attempt, including the final one — the trace alternates attempt `i` then a
sleep for `i = 0..n-1`, and the returned value is the error of the last
attempt. -/
theorem Retry_all_fail_spec {E : Type} (cb : Nat → Option E) (n : Nat) (hn : 1 ≤ n)
    (hfail : ∀ i < n, (cb i).isSome) :
    callCount (Retry cb (n : Int)).1 = n ∧
    (Retry cb (n : Int)).1.count REv.sleep = n ∧
    (Retry cb (n : Int)).1 = ((List.range n).flatMap fun i => [REv.call i, REv.sleep]) ∧
    (Retry cb (n : Int)).2 = cb (n - 1) := by
  have h := retryAux_all_fail cb n 0 none (by omega) (fun j hj => by simpa using hfail j hj)
  have htn : (n : Int).toNat = n := Int.toNat_natCast n
  rw [Retry, htn, h]
  refine ⟨?_, ?_, ?_, by simp⟩
  · rw [← List.range_eq_range']
    simpa using callCount_pairs (List.range n)
  · rw [← List.range_eq_range']
    simpa using sleep_count_pairs (List.range n)
  · rw [← List.range_eq_range']

/-- Witness for C2 (amended): two attempts that always fail with error `7`:
two calls, two sleeps (one after the final attempt), result `some 7`. -/
theorem Retry_all_fail_spec_witness :
    callCount (Retry (fun _ => some (7 : Nat)) 2).1 = 2 ∧
    (Retry (fun _ => some (7 : Nat)) 2).1.count REv.sleep = 2 ∧
    (Retry (fun _ => some (7 : Nat)) 2).1 =
      ((List.range 2).flatMap fun i => [REv.call i, REv.sleep]) ∧
    (Retry (fun _ => some (7 : Nat)) 2).2 = some 7 := by
  have h := Retry_all_fail_spec (fun _ => some (7 : Nat)) 2 (by decide) (fun i _ => rfl)
  exact ⟨h.1, h.2.1, h.2.2.1, h.2.2.2⟩

/-- C6: with a non-positive retry count the callback is never invoked and nil
is returned; with `n ≥ 1` attempts available, if attempt `k` (1-based,
`1 ≤ k ≤ n`) is the first to succeed, the callback is invoked exactly `k`
times and nil is returned. -/
theorem Retry_success_spec {E : Type} (cb : Nat → Option E) :
    (∀ z : Int, z ≤ 0 → Retry cb z = ([], none)) ∧
    (∀ k n : Nat, 1 ≤ k → k ≤ n → (∀ j < k - 1, (cb j).isSome) → cb (k - 1) = none →
      callCount (Retry cb (n : Int)).1 = k ∧ (Retry cb (n : Int)).2 = none) := by
  constructor
  · intro z hz
    rw [Retry, Int.toNat_of_nonpos hz]
    rfl
  · intro k n hk hkn hprev hsucc
    have h := retryAux_first_success cb (k - 1) ((n : Int).toNat) 0 none
      (by rw [Int.toNat_natCast]; omega) (fun j hj => by simpa using hprev j hj)
      (by simpa using hsucc)
    rw [Retry, h]
    constructor
    · rw [callCount, List.countP_append, ← callCount, ← List.range_eq_range']
      have h1 : callCount (((List.range (k - 1)).flatMap fun j => [REv.call j, REv.sleep])) =
          k - 1 := by simpa using callCount_pairs (List.range (k - 1))
      simp only [h1]
      simp [callCount]
      omega
    · rfl

/-- Witness for C6: `Retry` with count `-1` does nothing; with the callback
failing once then succeeding and `n = 3`, there are exactly 2 invocations and
a nil result. -/
theorem Retry_success_spec_witness :
    Retry (fun i => if i = 0 then some (3 : Nat) else none) (-1) = ([], none) ∧
    callCount (Retry (fun i => if i = 0 then some (3 : Nat) else none) (3 : Nat)).1 = 2 ∧
    (Retry (fun i => if i = 0 then some (3 : Nat) else none) (3 : Nat)).2 = none := by
  have h := Retry_success_spec (fun i => if i = 0 then some (3 : Nat) else none)
  have h1 := h.1 (-1) (by decide)
  have h2 := h.2 2 3 (by decide) (by decide) (fun j hj => by interval_cases j; decide)
    (by decide)
  exact ⟨h1, h2.1, h2.2⟩

/-- Instrumented body of `Parallel` (exco.go lines 55-81): one goroutine per
callback sends `callback(ctx)` into a buffered channel; after `wg.Wait()` the
closure drains `len(callbacks)` results, appends the non-nil ones to `errs`,
and returns `errors.Join(errs...)` — nil when `errs` is empty, otherwise an
aggregate wrapping exactly the collected errors in arrival order.

The scheduler nondeterminism is the order in which the goroutines' sends land
in the channel; it is modelled by the parameter `π`, the list of callback
indices in arrival order (a permutation of `0..n-1`, since each goroutine runs
and sends exactly once).  The first component of the result is `π` itself: the
multiset of performed invocations.  The aggregate is `Option (List E)`:
`none` for a nil `errors.Join`, `some errs` for the aggregate whose flattening
is `errs`. -/
def Parallel {C E : Type} (cbs : List (C → Option E)) (π : List Nat) (ctx : C) :
    List Nat × Option (List E) :=
  let errs := π.filterMap fun i => (cbs.getD i emptyCallback) ctx
  (π, if errs.isEmpty then none else some errs)

lemma toFinset_eq_of_perm {α : Type} [DecidableEq α] {l1 l2 : List α} (h : l1.Perm l2) :
    l1.toFinset = l2.toFinset := by
  ext a
  simp [List.mem_toFinset, h.mem_iff]

/-- C4: under any arrival order `π` (any permutation of the indices),
`Parallel` invokes every callback exactly once, returns nil iff every callback
returned nil, and otherwise the flattened aggregate is, as a set, exactly the
set of non-nil errors the callbacks returned. -/
theorem Parallel_spec {C E : Type} [DecidableEq E] (cbs : List (C → Option E)) (π : List Nat)
    (ctx : C) (hπ : π.Perm (List.range cbs.length)) :
    (∀ i < cbs.length, (Parallel cbs π ctx).1.count i = 1) ∧
    ((Parallel cbs π ctx).2 = none ↔
      ∀ i < cbs.length, (cbs.getD i emptyCallback) ctx = none) ∧
    (∀ l, (Parallel cbs π ctx).2 = some l →
      l.toFinset =
        ((List.range cbs.length).filterMap fun i => (cbs.getD i emptyCallback) ctx).toFinset) := by
  have hres : (Parallel cbs π ctx).2 =
      if (π.filterMap fun i => (cbs.getD i emptyCallback) ctx).isEmpty then none
      else some (π.filterMap fun i => (cbs.getD i emptyCallback) ctx) := rfl
  refine ⟨?_, ?_, ?_⟩
  · intro i hi
    have h1 : (Parallel cbs π ctx).1 = π := rfl
    rw [h1, hπ.count_eq i]
    exact List.count_eq_one_of_mem (List.nodup_range cbs.length) (List.mem_range.mpr hi)
  · constructor
    · intro hnone i hi
      by_cases hemp : (π.filterMap fun i => (cbs.getD i emptyCallback) ctx).isEmpty
      · have hnil : (π.filterMap fun i => (cbs.getD i emptyCallback) ctx) = [] :=
          List.isEmpty_iff.mp hemp
        exact List.filterMap_eq_nil_iff.mp hnil i
          (hπ.mem_iff.mpr (List.mem_range.mpr hi))
      · rw [hres, if_neg hemp] at hnone
        exact absurd hnone (Option.some_ne_none _)
    · intro hall
      have hnil : (π.filterMap fun i => (cbs.getD i emptyCallback) ctx) = [] :=
        List.filterMap_eq_nil_iff.mpr fun i hi =>
          hall i (List.mem_range.mp (hπ.mem_iff.mp hi))
      rw [hres, hnil]
      simp
  · intro l hl
    by_cases hemp : (π.filterMap fun i => (cbs.getD i emptyCallback) ctx).isEmpty
    · rw [hres, if_pos hemp] at hl
      exact absurd hl.symm (Option.some_ne_none _)
    · rw [hres, if_neg hemp] at hl
      have hleq : l = π.filterMap fun i => (cbs.getD i emptyCallback) ctx :=
        (Option.some_inj.mp hl).symm
      rw [hleq]
      exact toFinset_eq_of_perm (hπ.filterMap fun i => (cbs.getD i emptyCallback) ctx)

/-- Witness for C4: three callbacks with results `some 1`, `none`, `some 2`
under arrival order `[2, 0, 1]`: each index appears once in the invocation
trace, the aggregate is non-nil, and its flattening `[2, 1]` equals, as a set,
the set `{1, 2}` of returned non-nil errors. -/
theorem Parallel_spec_witness :
    (∀ i < 3, ((Parallel [fun _ => some 1, fun _ => (none : Option Nat), fun _ => some 2]
      [2, 0, 1] (0 : Nat)).1.count i = 1)) ∧
    ¬ ((Parallel [fun _ => some 1, fun _ => (none : Option Nat), fun _ => some 2]
      [2, 0, 1] (0 : Nat)).2 = none) ∧
    ([2, 1] : List Nat).toFinset =
      ((List.range 3).filterMap fun i =>
        (([fun _ => some 1, fun _ => (none : Option Nat), fun _ => some 2].getD i
          emptyCallback) (0 : Nat))).toFinset := by
  have h := Parallel_spec [fun _ => some 1, fun _ => (none : Option Nat), fun _ => some 2]
    [2, 0, 1] (0 : Nat) (by decide)
  refine ⟨fun i hi => h.1 i hi, ?_, ?_⟩
  · intro hc
    have := (h.2.1.mp hc) 0 (by decide)
    simp at this
  · exact h.2.2 [2, 1] rfl

/-- C10: applied to the empty callback list, both `Sequential` and `Parallel`
produce a callback that invokes nothing and returns nil for every context. -/
theorem empty_combinators_spec {C E : Type} (ctx : C) :
    Sequential (C := C) (E := E) [] ctx = ([], none) ∧
    Parallel (C := C) (E := E) [] [] ctx = ([], none) := by
  exact ⟨rfl, rfl⟩

/-- Witness for C10: the empty combinators under the concrete context `0`. -/
theorem empty_combinators_spec_witness :
    Sequential (C := Nat) (E := Nat) [] 0 = ([], none) ∧
    Parallel (C := Nat) (E := Nat) [] [] 0 = ([], none) :=
  empty_combinators_spec 0

/-- Events observable in a run of `Atomic` (exco.go lines 159-168). -/
inductive AEv where
  | commitCall
  | rollbackCall
deriving DecidableEq

/-- Instrumented body of `Atomic`: `err := commit(ctx); if err != nil { return
rollback(ctx) }; return nil`.  Returns the invocation trace and the result. -/
def Atomic {C E : Type} (commit rollback : C → Option E) (ctx : C) : List AEv × Option E :=
  match commit ctx with
  | some _ => ([AEv.commitCall, AEv.rollbackCall], rollback ctx)
  | none => ([AEv.commitCall], none)

/-- C5: if commit returns nil, `Atomic` returns nil and rollback is never
invoked; if commit returns a non-nil error, rollback is invoked exactly once
and the result equals rollback's return value (even when that is nil), never
commit's original error. -/
theorem Atomic_spec {C E : Type} (commit rollback : C → Option E) (ctx : C) :
    (commit ctx = none →
      (Atomic commit rollback ctx).1 = [AEv.commitCall] ∧
      (Atomic commit rollback ctx).2 = none) ∧
    (∀ e, commit ctx = some e →
      (Atomic commit rollback ctx).1.count AEv.rollbackCall = 1 ∧
      (Atomic commit rollback ctx).2 = rollback ctx) := by
  constructor
  · intro h
    rw [Atomic, h]
    exact ⟨rfl, rfl⟩
  · intro e h
    rw [Atomic, h]
    exact ⟨rfl, rfl⟩

/-- Witness for C5: commit succeeding (context `0`) gives nil and no rollback;
commit failing with error `1` while rollback returns nil gives one rollback
call and a nil result (rollback's value, not commit's error). -/
theorem Atomic_spec_witness :
    ((Atomic (fun _ => (none : Option Nat)) (fun _ => some 9) (0 : Nat)).1 = [AEv.commitCall] ∧
      (Atomic (fun _ => (none : Option Nat)) (fun _ => some 9) (0 : Nat)).2 = none) ∧
    ((Atomic (fun _ => some 1) (fun _ => (none : Option Nat)) (0 : Nat)).1.count
        AEv.rollbackCall = 1 ∧
      (Atomic (fun _ => some 1) (fun _ => (none : Option Nat)) (0 : Nat)).2 = none) := by
  have h1 := (Atomic_spec (fun _ => (none : Option Nat)) (fun _ => some 9) (0 : Nat)).1 rfl
  have h2 := (Atomic_spec (fun _ => some 1) (fun _ => (none : Option Nat)) (0 : Nat)).2 1 rfl
  exact ⟨h1, h2⟩

/-- `callbackToHealthCheckHandler` (exco.go lines 213-225): the handler invokes
the callback with the request context; a non-nil error produces status 503
with the error's message (`err.Error()`) as body, otherwise status 200 with
body "OK".  Errors are modelled as their message strings, the response as a
(status, body) pair. -/
def callbackToHealthCheckHandler {C : Type} (cb : C → Option String) (ctx : C) :
    Nat × String :=
  match cb ctx with
  | some e => (503, e)
  | none => (200, "OK")

/-- C7: the handler responds 200 with body "OK" exactly when the callback
returns nil, and responds 503 with body equal to the error's message exactly
when the callback returns that non-nil error. -/
theorem healthCheckHandler_spec {C : Type} (cb : C → Option String) (ctx : C) :
    (callbackToHealthCheckHandler cb ctx = (200, "OK") ↔ cb ctx = none) ∧
    (∀ m, callbackToHealthCheckHandler cb ctx = (503, m) ↔ cb ctx = some m) := by
  constructor
  · constructor
    · intro h
      cases hcb : cb ctx with
      | none => rfl
      | some e =>
        rw [callbackToHealthCheckHandler, hcb] at h
        have hfst : (503 : Nat) = 200 := congrArg Prod.fst h
        exact absurd hfst (by decide)
    · intro h
      rw [callbackToHealthCheckHandler, h]
  · intro m
    constructor
    · intro h
      cases hcb : cb ctx with
      | none =>
        rw [callbackToHealthCheckHandler, hcb] at h
        have hfst : (200 : Nat) = 503 := congrArg Prod.fst h
        exact absurd hfst (by decide)
      | some e =>
        rw [callbackToHealthCheckHandler, hcb] at h
        have hsnd : e = m := congrArg Prod.snd h
        rw [hsnd]
    · intro h
      rw [callbackToHealthCheckHandler, h]

/-- Witness for C7: with Live returning nil and Ready returning
error "not ready", the Live handler answers (200, "OK") and the Ready handler
answers (503, "not ready"). -/
theorem healthCheckHandler_spec_witness :
    callbackToHealthCheckHandler (fun _ => (none : Option String)) (0 : Nat) = (200, "OK") ∧
    callbackToHealthCheckHandler (fun _ => some "not ready") (0 : Nat) = (503, "not ready") := by
  have h1 := (healthCheckHandler_spec (fun _ => (none : Option String)) (0 : Nat)).1.mpr rfl
  have h2 := (healthCheckHandler_spec (fun _ => some "not ready") (0 : Nat)).2 "not ready"
  exact ⟨h1, h2.mpr rfl⟩

/-- The `Process` struct (exco.go lines 172-179).  Go nil function and pointer
fields are modelled as `none`; the logger's concrete type is opaque (`L`). -/
structure Process (C E L : Type) where
  Start : Option (C → Option E)
  Live : Option (C → Option E)
  Ready : Option (C → Option E)
  Stop : Option (C → Option E)
  Logger : Option L
  MonitorAddr : String

/-- A Go `if field == nil { field = d }` assignment on an optional field. -/
def fillNil {A : Type} (field : Option A) (d : A) : Option A :=
  match field with
  | none => some d
  | some f => some f

/-- `sanitizeProcess` (exco.go lines 185-211): each nil callback is replaced by
`emptyCallback`, a nil logger by a freshly constructed default stdout JSON
logger (`defaultLogger`, opaque here), and an empty `MonitorAddr` by `":0"`
(random port). -/
def sanitizeProcess {C E L : Type} (defaultLogger : L) (proc : Process C E L) :
    Process C E L :=
  { Start := fillNil proc.Start emptyCallback
    Live := fillNil proc.Live emptyCallback
    Ready := fillNil proc.Ready emptyCallback
    Stop := fillNil proc.Stop emptyCallback
    Logger := fillNil proc.Logger defaultLogger
    MonitorAddr := if proc.MonitorAddr = "" then ":0" else proc.MonitorAddr }

lemma fillNil_isSome {A : Type} (field : Option A) (d : A) : (fillNil field d).isSome := by
  cases field <;> rfl

lemma fillNil_some {A : Type} (field : Option A) (d f : A) (h : field = some f) :
    fillNil field d = some f := by
  rw [h]
  rfl

lemma fillNil_fillNil {A : Type} (field : Option A) (d : A) :
    fillNil (fillNil field d) d = fillNil field d := by
  cases field <;> rfl

/-- C8: after normalization all four callback fields and the logger are
non-null; an unset field is replaced by its default (`emptyCallback`, the
default logger, the ephemeral-port bind string ":0") while an already-set
field is returned unchanged; and normalization is idempotent. -/
theorem sanitizeProcess_spec {C E L : Type} (d : L) (p : Process C E L) :
    ((sanitizeProcess d p).Start.isSome ∧ (sanitizeProcess d p).Live.isSome ∧
      (sanitizeProcess d p).Ready.isSome ∧ (sanitizeProcess d p).Stop.isSome ∧
      (sanitizeProcess d p).Logger.isSome) ∧
    (p.Start = none → (sanitizeProcess d p).Start = some emptyCallback) ∧
    (p.Live = none → (sanitizeProcess d p).Live = some emptyCallback) ∧
    (p.Ready = none → (sanitizeProcess d p).Ready = some emptyCallback) ∧
    (p.Stop = none → (sanitizeProcess d p).Stop = some emptyCallback) ∧
    (p.Logger = none → (sanitizeProcess d p).Logger = some d) ∧
    (p.MonitorAddr = "" → (sanitizeProcess d p).MonitorAddr = ":0") ∧
    (∀ f, p.Start = some f → (sanitizeProcess d p).Start = some f) ∧
    (∀ f, p.Live = some f → (sanitizeProcess d p).Live = some f) ∧
    (∀ f, p.Ready = some f → (sanitizeProcess d p).Ready = some f) ∧
    (∀ f, p.Stop = some f → (sanitizeProcess d p).Stop = some f) ∧
    (∀ lg, p.Logger = some lg → (sanitizeProcess d p).Logger = some lg) ∧
    (p.MonitorAddr ≠ "" → (sanitizeProcess d p).MonitorAddr = p.MonitorAddr) ∧
    sanitizeProcess d (sanitizeProcess d p) = sanitizeProcess d p := by
  refine ⟨⟨fillNil_isSome _ _, fillNil_isSome _ _, fillNil_isSome _ _, fillNil_isSome _ _,
      fillNil_isSome _ _⟩,
    fun h => by rw [sanitizeProcess, h]; rfl,
    fun h => by rw [sanitizeProcess, h]; rfl,
    fun h => by rw [sanitizeProcess, h]; rfl,
    fun h => by rw [sanitizeProcess, h]; rfl,
    fun h => by rw [sanitizeProcess, h]; rfl,
    fun h => by rw [sanitizeProcess, h]; rfl,
    fun f h => fillNil_some _ _ _ h,
    fun f h => fillNil_some _ _ _ h,
    fun f h => fillNil_some _ _ _ h,
    fun f h => fillNil_some _ _ _ h,
    fun lg h => fillNil_some _ _ _ h,
    fun h => by rw [sanitizeProcess]; simp [h],
    ?_⟩
  show sanitizeProcess d (sanitizeProcess d p) = sanitizeProcess d p
  by_cases h : p.MonitorAddr = "" <;>
    simp [sanitizeProcess, fillNil_fillNil, h]

/-- Witness for C8: on a process with no fields set, the Start callback,
logger and monitor address all get their defaults; on a process with a set
monitor address the address is unchanged. -/
theorem sanitizeProcess_spec_witness :
    (sanitizeProcess (C := Nat) (E := Nat) (0 : Nat)
      ⟨none, none, none, none, none, ""⟩).Start = some emptyCallback ∧
    (sanitizeProcess (C := Nat) (E := Nat) (0 : Nat)
      ⟨none, none, none, none, none, ""⟩).Logger = some 0 ∧
    (sanitizeProcess (C := Nat) (E := Nat) (0 : Nat)
      ⟨none, none, none, none, none, ""⟩).MonitorAddr = ":0" ∧
    (sanitizeProcess (C := Nat) (E := Nat) (0 : Nat)
      ⟨none, none, none, none, none, ":8086"⟩).MonitorAddr = ":8086" := by
  obtain ⟨hA, hB1, hB2, hB3, hB4, hB5, hB6, hC1, hC2, hC3, hC4, hC5, hC6, hD⟩ :=
    sanitizeProcess_spec (C := Nat) (E := Nat) (L := Nat) 0 ⟨none, none, none, none, none, ""⟩
  obtain ⟨hA2, hB12, hB22, hB32, hB42, hB52, hB62, hC12, hC22, hC32, hC42, hC52, hC62, hD2⟩ :=
    sanitizeProcess_spec (C := Nat) (E := Nat) (L := Nat) 0
      ⟨none, none, none, none, none, ":8086"⟩
  exact ⟨hB1 rfl, hB5 rfl, hB6 rfl, hC62 (by decide)⟩

/-- In `Serve` (exco.go lines 254-326) the caller-supplied `stopSignal` is a
plain Go channel, and two goroutines block on `<-stopSignal`: the health-check
server's shutdown watcher (line 284) and the lifecycle watcher (line 303).  A
value sent on a Go channel is delivered to exactly one receiver, so when the
stop signal is delivered once, exactly one of the two watchers observes it;
which one is the scheduler's choice, modelled by this parameter. -/
inductive SigReceiver where
  | healthWatcher
  | lifecycleWatcher
deriving DecidableEq

/-- Events of a `Serve` run. -/
inductive SEv where
  | infoStart
  | startCall
  | startErrLog
  | recvSignal
  | infoStop
  | stopCall
  | stopErrLog
  | cancelRoot
  | httpShutdown
  | serveReturn
deriving DecidableEq

/-- Trace of `Serve`'s calling goroutine (exco.go lines 255-326): it logs
"Start process", creates the root context `mainCtx`, spawns the two background
goroutines, invokes `proc.Start(mainCtx)` synchronously, logs a non-nil Start
error, then blocks on `<-mainCtx.Done()`; it returns only if the root context
is cancelled, which happens only when the lifecycle watcher (line 302-316)
received the stop signal and called `mainCancel()`. -/
def serveMainTrace {E : Type} (startErr : Option E) (recv : SigReceiver) : List SEv :=
  [SEv.infoStart, SEv.startCall] ++
    (match startErr with | some _ => [SEv.startErrLog] | none => []) ++
    (if recv = SigReceiver.lifecycleWatcher then [SEv.serveReturn] else [])

/-- Trace of the lifecycle watcher goroutine (exco.go lines 302-316): after
receiving the stop signal it logs "Stop process", invokes `proc.Stop` with a
fresh context, logs a non-nil Stop error, then calls `stopCancel()` and
`mainCancel()` (cancelling the root context).  If the single signal went to
the other watcher, this goroutine stays blocked and does nothing. -/
def serveLifecycleTrace {E : Type} (stopErr : Option E) (recv : SigReceiver) : List SEv :=
  if recv = SigReceiver.lifecycleWatcher then
    [SEv.recvSignal, SEv.infoStop, SEv.stopCall] ++
      (match stopErr with | some _ => [SEv.stopErrLog] | none => []) ++ [SEv.cancelRoot]
  else []

/-- Trace of the health server's shutdown watcher goroutine (exco.go lines
283-293): after receiving the stop signal it initiates `server.Shutdown` under
a 30-second budget.  If the single signal went to the other watcher, this
goroutine stays blocked and the HTTP server is never shut down. -/
def serveHealthShutdownTrace (recv : SigReceiver) : List SEv :=
  if recv = SigReceiver.healthWatcher then [SEv.recvSignal, SEv.httpShutdown] else []

/-- C1 failing run: when the one stop-signal value is received by the
health-check shutdown watcher, the HTTP graceful shutdown is initiated, but
the lifecycle watcher never runs — `Stop` is not invoked, the root context is
not cancelled and `Serve` does not return; the claim that both waiters observe
the single signal fails on this run. -/
theorem Serve_single_signal_starvation :
    serveHealthShutdownTrace SigReceiver.healthWatcher = [SEv.recvSignal, SEv.httpShutdown] ∧
    serveLifecycleTrace (E := Nat) none SigReceiver.healthWatcher = [] ∧
    SEv.stopCall ∉ serveLifecycleTrace (E := Nat) none SigReceiver.healthWatcher ∧
    SEv.cancelRoot ∉ serveLifecycleTrace (E := Nat) none SigReceiver.healthWatcher ∧
    SEv.serveReturn ∉ serveMainTrace (E := Nat) none SigReceiver.healthWatcher := by
  decide

/-- C9: a Start failure is logged on the calling goroutine but never cancels
the root context — no `cancelRoot` event occurs on the main or health-watcher
traces regardless of `startErr` — `Serve` keeps blocking (it returns only when
the lifecycle watcher received the stop signal), and the root context is
cancelled only on the stop-signal path, strictly after `Stop` has returned. -/
theorem Serve_start_failure_spec {E : Type} (startErr stopErr : Option E)
    (recv : SigReceiver) :
    SEv.cancelRoot ∉ serveMainTrace startErr recv ∧
    SEv.cancelRoot ∉ serveHealthShutdownTrace recv ∧
    (startErr.isSome → SEv.startErrLog ∈ serveMainTrace startErr recv) ∧
    (SEv.serveReturn ∈ serveMainTrace startErr recv → recv = SigReceiver.lifecycleWatcher) ∧
    (SEv.cancelRoot ∈ serveLifecycleTrace stopErr recv →
      recv = SigReceiver.lifecycleWatcher ∧
      (serveLifecycleTrace stopErr recv).indexOf SEv.stopCall <
        (serveLifecycleTrace stopErr recv).indexOf SEv.cancelRoot) := by
  cases recv <;> cases startErr <;> cases stopErr <;>
    simp [serveMainTrace, serveLifecycleTrace, serveHealthShutdownTrace]

/-- Witness for C9: a run with a failing Start (error `1`), a nil-returning
Stop and the lifecycle watcher receiving the signal: the Start error is
logged, and the root-context cancellation comes after `Stop` returned. -/
theorem Serve_start_failure_spec_witness :
    SEv.startErrLog ∈ serveMainTrace (some (1 : Nat)) SigReceiver.lifecycleWatcher ∧
    (serveLifecycleTrace (E := Nat) none SigReceiver.lifecycleWatcher).indexOf SEv.stopCall <
      (serveLifecycleTrace (E := Nat) none SigReceiver.lifecycleWatcher).indexOf
        SEv.cancelRoot := by
  have h := Serve_start_failure_spec (some (1 : Nat)) (none : Option Nat)
    SigReceiver.lifecycleWatcher
  exact ⟨h.2.2.1 rfl, (h.2.2.2.2 (by decide)).2⟩

end Talker
